import Mathlib

/-!
Shallow embedding of the unified policy chatbot (`app.py`): the intent
extractor `extract_user_info`, the source adapters' filter logic
(`YouthPolicyAPI.search_policies`, `BizinfoPolicyAPI.get_policies`), and the
federation pipeline `UnifiedPolicyChatbot.search_policies` with its
deduplication and final sampling steps.  Upstream HTTP fetches are modelled
by passing the fetched data as an argument; `random.shuffle` is modelled by
an explicit shuffle-function argument, about which theorems assume only that
it permutes its input.  Results formatting is out of scope, so the federation
returns a structured outcome carrying the record list that the code formats.
-/

/-- Python truthiness of an optional integer: `None` and `0` are falsy. -/
def pyTruthyOptInt : Option Int → Bool
  | none => false
  | some n => n != 0

/-- Python truthiness of an optional string: `None` and `""` are falsy. -/
def pyTruthyOptStr : Option String → Bool
  | none => false
  | some s => s != ""

/-- `needle` is a leading segment of `hay`. -/
def listHasPre : List Char → List Char → Bool
  | [], _ => true
  | _ :: _, [] => false
  | c :: ns, h :: hs => c == h && listHasPre ns hs

/-- Contiguous-substring test on char lists. -/
def strContainsAux (needle : List Char) : List Char → Bool
  | [] => listHasPre needle []
  | h :: hs => listHasPre needle (h :: hs) || strContainsAux needle hs

/-- Python `needle in hay` on strings: contiguous substring test. -/
def strContains (hay needle : String) : Bool :=
  strContainsAux needle.toList hay.toList

/-- The raw JSON value of an age field of a Youth policy item, as consumed by
`int(policy.get(key, default))`: the key may be absent, hold a value that
`int()` converts to an integer, or hold a value on which `int()` raises. -/
inductive AgeField
  | absent
  | val (n : Int)
  | bad
deriving DecidableEq

/-- `int(policy.get(key, dflt))`: absent keys fall back to the default,
convertible values yield their integer, anything else raises. -/
def AgeField.parse : AgeField → Int → Except Unit Int
  | .absent, d => .ok d
  | .val n, _ => .ok n
  | .bad, _ => .error ()

/-- One item of the upstream `youthPolicyList`, restricted to the fields the
code reads.  String-valued fields use `''` defaults in the code, so absence
is collapsed into the empty string; `refUrlAddr1` is read with `.get` and no
default at the federation layer, so absence is kept distinct. -/
structure YouthPolicy where
  sprtTrgtMinAge : AgeField
  sprtTrgtMaxAge : AgeField
  rgtrInstCdNm : String
  lclsfNm : String
  plcyNm : String
  plcyExplnCn : String
  refUrlAddr1 : Option String
deriving DecidableEq

/-- The `region_mapping` table of `YouthPolicyAPI.search_policies`. -/
def region_mapping : List (String × List String) :=
  [ ("서울", ["서울"]),
    ("부산", ["부산"]),
    ("대구", ["대구"]),
    ("인천", ["인천"]),
    ("광주", ["광주"]),
    ("대전", ["대전"]),
    ("울산", ["울산"]),
    ("세종", ["세종"]),
    ("경기", ["경기"]),
    ("강원", ["강원"]),
    ("충북", ["충청북도", "충북"]),
    ("충남", ["충청남도", "충남"]),
    ("충청", ["충청북도", "충북", "충청남도", "충남", "대전", "세종"]),
    ("전북", ["전라북도", "전북", "전북특별자치도"]),
    ("전남", ["전라남도", "전남"]),
    ("전라", ["전라북도", "전북", "전라남도", "전남", "광주"]),
    ("경북", ["경상북도", "경북"]),
    ("경남", ["경상남도", "경남"]),
    ("경상", ["경상북도", "경북", "경상남도", "경남", "부산", "울산", "대구"]),
    ("제주", ["제주"]),
    ("창원", ["창원"]),
    ("함안", ["함안"]),
    ("거제", ["거제"]),
    ("김해", ["김해"]),
    ("청주", ["청주"]),
    ("천안", ["천안"]) ]

/-- The age-filter block of `YouthPolicyAPI.search_policies` (lines 71-90):
returns `true` when the record survives the block.  `int()` failures hit
`except: pass` and the record survives; values outside `[0,120]` are dropped;
under `all_ages` the record needs an age-range width of at least 50; under a
truthy `age` it needs `min_age <= age <= max_age`. -/
def youthAgeCheck (age : Option Int) (all_ages : Bool) (p : YouthPolicy) : Bool :=
  if pyTruthyOptInt age || all_ages then
    match p.sprtTrgtMinAge.parse 0, p.sprtTrgtMaxAge.parse 999 with
    | Except.ok mn, Except.ok mx =>
        if decide (mn < 0) || decide (mn > 120) || decide (mx < 0) || decide (mx > 120) then
          false
        else if all_ages then
          decide (50 ≤ mx - mn)
        else if pyTruthyOptInt age then
          match age with
          | some a => decide (mn ≤ a) && decide (a ≤ mx)
          | none => true
        else true
    | _, _ => true
  else true

/-- The region-filter block (lines 93-134): with a truthy region, the
institution name must contain one of the mapped synonyms (or the raw region
token when it is not in the table). -/
def youthRegionCheck (region : Option String) (p : YouthPolicy) : Bool :=
  if pyTruthyOptStr region then
    match region with
    | some r =>
        let ms := match region_mapping.find? (fun kv => kv.1 == r) with
          | some kv => kv.2
          | none => [r]
        ms.any (fun mr => strContains p.rgtrInstCdNm mr)
    | none => true
  else true

/-- The category-filter block (lines 137-140). -/
def youthCategoryCheck (category : Option String) (p : YouthPolicy) : Bool :=
  if pyTruthyOptStr category then
    match category with
    | some c => strContains p.lclsfNm c
    | none => true
  else true

/-- The keyword-filter block (lines 143-147): keyword must occur in the
policy name or in the description. -/
def youthKeywordCheck (keyword : Option String) (p : YouthPolicy) : Bool :=
  if pyTruthyOptStr keyword then
    match keyword with
    | some k => strContains p.plcyNm k || strContains p.plcyExplnCn k
    | none => true
  else true

/-- `YouthPolicyAPI.search_policies`: filter the fetched policies, then, when
more than `max_results` survive, shuffle and truncate.  The upstream fetch is
modelled by the `policies` argument and `random.shuffle` by `shuffle`. -/
def YouthPolicyAPI.search_policies (policies : List YouthPolicy)
    (shuffle : List YouthPolicy → List YouthPolicy)
    (age : Option Int) (region category keyword : Option String)
    (max_results : Nat) (all_ages : Bool) : List YouthPolicy :=
  let filtered := policies.filter (fun p =>
    youthAgeCheck age all_ages p && youthRegionCheck region p &&
      youthCategoryCheck category p && youthKeywordCheck keyword p)
  if max_results < filtered.length then (shuffle filtered).take max_results else filtered

/-- JSON values, as delivered by `response.json()`. -/
inductive Json
  | obj (fields : List (String × Json))
  | arr (elems : List Json)
  | str (s : String)
  | num (n : Int)
  | bool (b : Bool)
  | null

/-- Dictionary lookup on an object's field list (first binding wins). -/
def lookupJ (fields : List (String × Json)) (k : String) : Option Json :=
  match fields.find? (fun kv => kv.1 == k) with
  | some kv => some kv.2
  | none => none

/-- `fields.get(k, d)`. -/
def getJ (fields : List (String × Json)) (k : String) (d : Json) : Json :=
  match lookupJ fields k with
  | some v => v
  | none => d

/-- Python truthiness of a JSON value. -/
def Json.truthy : Json → Bool
  | .obj fields => !fields.isEmpty
  | .arr elems => !elems.isEmpty
  | .str s => s != ""
  | .num n => n != 0
  | .bool b => b
  | .null => false

/-- Python `for item in items`: dicts iterate over their keys, lists over
their elements, strings over their one-character substrings; anything else
raises `TypeError`. -/
def pyIter : Json → Except Unit (List Json)
  | .obj fields => .ok (fields.map (fun kv => Json.str kv.1))
  | .arr elems => .ok elems
  | .str s => .ok (s.toList.map (fun c => Json.str (String.singleton c)))
  | _ => .error ()

/-- A policy record normalized by `BizinfoPolicyAPI.get_policies`.  The raw
field values are stored as fetched (they are only displayed), except `url`,
which the code builds by string concatenation and which is therefore always
a string when the record is produced at all. -/
structure BizPolicy where
  title : Json
  agency : Json
  category : Json
  summary : Json
  period : Json
  url : String

/-- Building one record from one raw item (lines 210-218): every field is an
`item.get` with a `"N/A"` default; `url` glues the fixed site address onto
`item.get("pblancUrl", "")`, which raises `TypeError` (absorbed by the outer
handler) when the value is present but not a string. -/
def mkBizPolicy (fields : List (String × Json)) : Except Unit BizPolicy := do
  let pb ← match lookupJ fields "pblancUrl" with
    | none => Except.ok ""
    | some (Json.str s) => Except.ok s
    | some _ => Except.error ()
  Except.ok
    { title := getJ fields "pblancNm" (Json.str "N/A")
      agency := getJ fields "jrsdInsttNm" (Json.str "N/A")
      category := getJ fields "pldirSportRealmLclasCodeNm" (Json.str "N/A")
      summary := getJ fields "bsnsSumryCn" (Json.str "N/A")
      period := getJ fields "rceptPrdCn" (Json.str "N/A")
      url := "https://www.bizinfo.go.kr" ++ pb }

/-- The `for item in items` loop building records: `item.get` on a non-dict
element raises `AttributeError`, which the outer handler absorbs. -/
def buildBizPolicies : List Json → Except Unit (List BizPolicy)
  | [] => .ok []
  | Json.obj fields :: rest => do
      let p ← mkBizPolicy fields
      let ps ← buildBizPolicies rest
      .ok (p :: ps)
  | _ :: _ => .error ()

/-- Lines 197-204 of `BizinfoPolicyAPI.get_policies`: locate the raw item
collection.  `"jsonArray" in data` raises `TypeError` on non-container
payloads; `data["jsonArray"]` raises `TypeError` when `data` is a list or a
string even if the membership test succeeded. -/
def computeBizItems : Json → Except Unit (Option Json)
  | Json.obj fields =>
      match lookupJ fields "jsonArray" with
      | some arrv =>
          match arrv with
          | Json.obj af => Except.ok (lookupJ af "item")
          | Json.arr elems => Except.ok (some (Json.arr elems))
          | _ => Except.ok none
      | none => Except.ok none
  | Json.arr elems =>
      if elems.any (fun j => match j with | Json.str s => s == "jsonArray" | _ => false) then
        Except.error ()
      else Except.ok none
  | Json.str s => if strContains s "jsonArray" then Except.error () else Except.ok none
  | _ => Except.error ()

/-- The parsing core of `BizinfoPolicyAPI.get_policies`; `.error` marks any
raised exception, which the function's handler turns into `[]`. -/
def bizinfoParse (data : Json) : Except Unit (List BizPolicy) := do
  let itemsO ← computeBizItems data
  match itemsO with
  | none => .ok []
  | some items =>
      if items.truthy then do
        let itemList ← pyIter items
        buildBizPolicies itemList
      else .ok []

/-- `BizinfoPolicyAPI.get_policies` on an already-fetched JSON payload: any
exception during parsing yields zero candidates. -/
def BizinfoPolicyAPI.get_policies (data : Json) : List BizPolicy :=
  match bizinfoParse data with
  | .ok l => l
  | .error _ => []

/-- A policy record normalized by `AlioplusPolicyAPI.get_policies`; the
fields are stored as fetched, and `url` defaults to the empty string. -/
structure AlioPolicy where
  title : Json
  agency : Json
  summary : Json
  lifecycle : Json
  target : Json
  method : Json
  inquiry : Json
  url : String
  category : Json

/-- A candidate record in the federation merge, tagged by its source (the
code stamps a `source` field; the constructor plays that role here). -/
inductive PolicyRecord
  | youth (p : YouthPolicy)
  | biz (p : BizPolicy)
  | alio (p : AlioPolicy)

/-- The dedup key of line 662, `policy.get('refUrlAddr1') or policy.get('url')`,
combined with the truthiness test of lines 663-667: `none` when the resulting
value is absent or empty (such records are always kept).  Youth items carry no
`url` key, so the `or` falls back to `None` for them; BizInfo and AlioPlus
records carry no `refUrlAddr1` key, so their `url` value is used. -/
def PolicyRecord.dedupUrl : PolicyRecord → Option String
  | .youth p =>
      match p.refUrlAddr1 with
      | some s => if s = "" then none else some s
      | none => none
  | .biz p => if p.url = "" then none else some p.url
  | .alio p => if p.url = "" then none else some p.url

/-- Lines 658-670: walk the merged candidates keeping a `seen_urls` set;
a record with a truthy key is kept exactly when its key is fresh, and a
record with no truthy key is always kept. -/
def dedupAux (seen : List String) : List PolicyRecord → List PolicyRecord
  | [] => []
  | p :: rest =>
      match p.dedupUrl with
      | some u => if u ∈ seen then dedupAux seen rest else p :: dedupAux (u :: seen) rest
      | none => p :: dedupAux seen rest

/-- The federation deduplication pass over the merged candidate list. -/
def dedup_policies (l : List PolicyRecord) : List PolicyRecord :=
  dedupAux [] l

/-- The structured query produced by `extract_user_info` (a Python dict in
the code). -/
structure UserInfo where
  age : Option Int
  region : Option String
  category : Option String
  keyword : Option String
  target : String
  explicit_search : Bool
  all_ages : Bool
  max_results : Nat

/-- Line 626: `results_per_api = max(3, max_results * 2)`, the single
over-fetch count handed to every consulted adapter. -/
def results_per_api (max_results : Nat) : Nat :=
  max 3 (max_results * 2)

/-- The Youth gate of lines 629-630:
`target in ['youth','both']` and `all_ages or age is None or (age and age <= 39)`.
`age and age <= 39` is falsy when `age == 0`. -/
def youthGate (info : UserInfo) : Bool :=
  (info.target == "youth" || info.target == "both") &&
    (info.all_ages || info.age.isNone ||
      (match info.age with
       | some a => a != 0 && decide (a ≤ 39)
       | none => false))

/-- The business gate of line 642: `target in ['business','both','senior']`. -/
def bizGate (info : UserInfo) : Bool :=
  info.target == "business" || info.target == "both" || info.target == "senior"

/-- Lines 628-655: fan out to the gated adapters (each adapter is passed in
as a function, standing for the `self.*_api` collaborator) and concatenate
the candidate lists in merge order: Youth, then BizInfo, then AlioPlus. -/
def mergedCandidates
    (youthSearch : Option Int → Option String → Option String → Nat → Bool → List YouthPolicy)
    (bizSearch : Option String → Nat → List BizPolicy)
    (alioSearch : Option String → Nat → List AlioPolicy)
    (info : UserInfo) : List PolicyRecord :=
  (if youthGate info then
      (youthSearch (if info.all_ages then none else info.age) info.region info.keyword
          (results_per_api info.max_results) info.all_ages).map PolicyRecord.youth
    else [])
  ++ (if bizGate info then
        (bizSearch info.keyword (results_per_api info.max_results)).map PolicyRecord.biz
          ++ (alioSearch info.keyword (results_per_api info.max_results)).map PolicyRecord.alio
      else [])

/-- Lines 673-675: when the deduplicated set exceeds `max_results`, shuffle
and truncate to exactly `max_results`; otherwise return it whole. -/
def finalPolicies (shuffle : List PolicyRecord → List PolicyRecord)
    (max_results : Nat) (d : List PolicyRecord) : List PolicyRecord :=
  if max_results < d.length then (shuffle d).take max_results else d

/-- The three observably distinct returns of the federation search: the
age-above-ceiling explanation string of lines 679-685, the bare empty string
of line 686, and the formatted record list of lines 688-700. -/
inductive SearchOutcome
  | ageContext (age : Int)
  | empty
  | results (l : List PolicyRecord)

/-- Lines 677-686: an empty final list surfaces the age explanation when the
age is truthy and above 39, and the bare empty string otherwise. -/
def emptyOutcome (age : Option Int) : SearchOutcome :=
  match age with
  | some a => if a != 0 && decide (39 < a) then SearchOutcome.ageContext a else SearchOutcome.empty
  | none => SearchOutcome.empty

/-- `UnifiedPolicyChatbot.search_policies`: gate, fan out, merge, dedup,
sample, and classify the outcome. -/
def UnifiedPolicyChatbot.search_policies
    (youthSearch : Option Int → Option String → Option String → Nat → Bool → List YouthPolicy)
    (bizSearch : Option String → Nat → List BizPolicy)
    (alioSearch : Option String → Nat → List AlioPolicy)
    (shuffle : List PolicyRecord → List PolicyRecord)
    (info : UserInfo) : SearchOutcome :=
  let d := dedup_policies (mergedCandidates youthSearch bizSearch alioSearch info)
  let fin := finalPolicies shuffle info.max_results d
  if fin.isEmpty then emptyOutcome info.age else SearchOutcome.results fin

/-- Numeric value of a digit run (most significant first). -/
def digitsVal (l : List Char) : Nat :=
  l.foldl (fun a c => a * 10 + (c.toNat - 48)) 0

/-- `re.search(r'(\d+)개', message)`: the first maximal digit run that is
immediately followed by the character 개, returned as its numeric value. -/
def findCountGae : List Char → Option Nat
  | [] => none
  | c :: rest =>
      if c.isDigit then
        let run := rest.takeWhile Char.isDigit
        let after := rest.dropWhile Char.isDigit
        match after with
        | '개' :: _ => some (digitsVal (c :: run))
        | _ => findCountGae after
      else findCountGae rest
termination_by l => l.length
decreasing_by
  all_goals simp only [List.length_cons]
  · exact Nat.lt_succ_of_le (List.dropWhile_suffix Char.isDigit).sublist.length_le
  · exact Nat.lt_succ_self _

/-- `re.search(r'(\d{1,2})대', message)`: at each position, greedily try two
digits then one digit before the character 대; leftmost match wins. -/
def searchDecade : List Char → Option Nat
  | [] => none
  | c :: rest =>
      if c.isDigit then
        match rest with
        | d :: rest2 =>
            if d.isDigit then
              match rest2 with
              | '대' :: _ => some (digitsVal [c, d])
              | _ => searchDecade rest
            else if d = '대' then some (digitsVal [c])
            else searchDecade rest
        | [] => none
      else searchDecade rest

/-- `re.search(r'(\d{2})<suffix>', message)`: exactly two digits immediately
followed by the given suffix character; leftmost match wins. -/
def searchTwoDigit (suffix : Char) : List Char → Option Nat
  | c :: d :: e :: rest =>
      if c.isDigit && d.isDigit && e == suffix then some (digitsVal [c, d])
      else searchTwoDigit suffix (d :: e :: rest)
  | _ => none

/-- Whitespace as matched by `\s` (the code's messages only use ASCII space
characters between Korean tokens). -/
def pyIsSpace (c : Char) : Bool :=
  c == ' ' || c == '\t' || c == '\n' || c == '\r'

/-- `re.search(r'나이[는]?\s*(\d{2})', message)`: the literal 나이, an
optional 는, any whitespace, then exactly two digits.  A later backtrack of
the optional 는 can never succeed (는 is neither whitespace nor a digit), so
a failed position simply advances the scan. -/
def searchNaiAge : List Char → Option Nat
  | '나' :: '이' :: rest =>
      let r1 := match rest with
        | '는' :: r => r
        | _ => rest
      let r2 := r1.dropWhile pyIsSpace
      match r2 with
      | c :: d :: _ =>
          if c.isDigit && d.isDigit then some (digitsVal [c, d])
          else searchNaiAge ('이' :: rest)
      | _ => searchNaiAge ('이' :: rest)
  | _ :: rest => searchNaiAge rest
  | [] => none
termination_by l => l.length
decreasing_by all_goals simp_arith

/-- One exact-age pattern step of the loop in lines 529-546: a match outside
`[0,120]` falls through to the next pattern (`0 ≤ v` is automatic here since
the two-digit patterns produce naturals). -/
def tryExact (found : Option Nat) (next : Option Int) : Option Int :=
  match found with
  | some v => if v ≤ 120 then some (v : Int) else next
  | none => next

/-- The age-extraction loop of lines 522-546: decade pattern first (valid
decades `1..12` map to the midpoint `N*10+5`), then 살, 세 and 나이는 with
the `[0,120]` validator; the first successful pattern wins and an invalid
match skips to the next pattern. -/
def extractAge (l : List Char) : Option Int :=
  let exactChain :=
    tryExact (searchTwoDigit '살' l)
      (tryExact (searchTwoDigit '세' l)
        (tryExact (searchNaiAge l) none))
  match searchDecade l with
  | some n => if 1 ≤ n && n ≤ 12 then some ((n : Int) * 10 + 5) else exactChain
  | none => exactChain

/-- The all-ages phrase set of line 509. -/
def all_age_keywords : List String :=
  ["전연령", "모든 연령", "연령무관", "연령 무관", "나이무관", "나이 무관"]

/-- The ordered region dictionary of lines 549-557 (each key maps to
itself). -/
def region_keys : List String :=
  ["서울", "부산", "대구", "인천", "광주", "대전", "울산", "세종",
   "경기", "강원", "충북", "충남", "충청", "전북", "전남", "전라",
   "경북", "경남", "경상", "제주", "창원", "거제", "함안", "청주",
   "천안", "김해"]

/-- The keyword vocabulary of lines 573-578. -/
def keywords_vocab : List String :=
  ["창업", "취업", "주거", "자격증", "대출", "교육", "R&D",
   "면접", "전세", "월세", "훈련", "인턴", "채용", "장려금", "생활비",
   "노인", "어르신", "복지", "지원", "돌봄", "건강", "의료", "요양",
   "일자리", "구직", "청년", "고용", "직업", "기술", "연구", "개발"]

/-- The policy-domain keywords of line 585. -/
def policy_keywords : List String :=
  ["정책", "지원", "사업", "프로그램", "혜택", "보조금"]

/-- The search verbs of line 589. -/
def search_verbs : List String :=
  ["찾아", "검색", "뽑아", "추천", "보여", "달라"]

/-- The general-question verbs of line 593. -/
def general_verbs : List String :=
  ["알려", "궁금", "뭐야", "이유", "장점", "단점", "의미", "정의", "설명"]

/-- The literal greetings of line 611. -/
def greetings_list : List String :=
  ["안녕", "안녕하세요", "hi", "헬로", "뭐해", "잘가"]

/-- `UnifiedPolicyChatbot.extract_user_info` (lines 495-614): the
deterministic intent extractor. -/
def UnifiedPolicyChatbot.extract_user_info (message : String) : UserInfo :=
  let all_ages := all_age_keywords.any (fun kw => strContains message kw)
  let max_results :=
    match findCountGae message.toList with
    | some n => if 1 ≤ n && n ≤ 20 then n else 3
    | none => 3
  let age := extractAge message.toList
  let region := region_keys.find? (fun kw => strContains message kw)
  let target :=
    if ["노인", "어르신", "고령", "시니어"].any (fun w => strContains message w) then "senior"
    else if ["기업", "사업자", "중소기업"].any (fun w => strContains message w) then "business"
    else if ["청년", "취업", "대학생"].any (fun w => strContains message w) then "youth"
    else "both"
  let keyword := keywords_vocab.find? (fun kw => strContains message kw)
  let has_policy_context := policy_keywords.any (fun kw => strContains message kw)
  let has_search_verb := search_verbs.any (fun v => strContains message v)
  let is_general_query := general_verbs.any (fun v => strContains message v)
  let es0 := (has_policy_context && has_search_verb) ||
    (has_policy_context && (pyTruthyOptInt age || pyTruthyOptStr region || pyTruthyOptStr keyword)
      && !is_general_query)
  let es1 :=
    if (strContains message "줘" || strContains message "주세요") && has_policy_context then true
    else es0
  let es2 :=
    if strContains message "이유" || strContains message "뭐야" || strContains message "설명" then
      false
    else es1
  let es3 := if greetings_list.contains message.trim.toLower then false else es2
  { age := age
    region := region
    category := none
    keyword := keyword
    target := target
    explicit_search := es3
    all_ages := all_ages
    max_results := max_results }

/-- Unfolding `dedupAux` on a record whose dedup key is truthy. -/
theorem dedupAux_cons_some {p : PolicyRecord} {u : String} (hu : p.dedupUrl = some u)
    (seen : List String) (rest : List PolicyRecord) :
    dedupAux seen (p :: rest)
      = if u ∈ seen then dedupAux seen rest else p :: dedupAux (u :: seen) rest := by
  simp only [dedupAux, hu]

/-- Unfolding `dedupAux` on a record with no truthy dedup key. -/
theorem dedupAux_cons_none {p : PolicyRecord} (hu : p.dedupUrl = none)
    (seen : List String) (rest : List PolicyRecord) :
    dedupAux seen (p :: rest) = p :: dedupAux seen rest := by
  simp only [dedupAux, hu]

/-- Two records do not share a (truthy) dedup key. -/
def noSharedUrl (a b : PolicyRecord) : Prop :=
  ∀ k, a.dedupUrl = some k → b.dedupUrl ≠ some k

theorem noSharedUrl_symm : Symmetric noSharedUrl := by
  intro a b h k hb ha
  exact h k ha hb

theorem dedupAux_sublist (seen : List String) (l : List PolicyRecord) :
    (dedupAux seen l).Sublist l := by
  induction l generalizing seen with
  | nil => exact List.Sublist.refl _
  | cons p rest ih =>
      cases hu : p.dedupUrl with
      | some u =>
          rw [dedupAux_cons_some hu]
          by_cases hs : u ∈ seen
          · rw [if_pos hs]
            exact (ih seen).cons p
          · rw [if_neg hs]
            exact (ih (u :: seen)).cons₂ p
      | none =>
          rw [dedupAux_cons_none hu]
          exact (ih seen).cons₂ p

/-- `find?` skips an element the predicate rejects. -/
theorem find?_cons_neg {α : Type} {f : α → Bool} {a : α} (l : List α) (h : f a = false) :
    List.find? f (a :: l) = List.find? f l := by
  simp [List.find?, h]

/-- `find?` stops at an element the predicate accepts. -/
theorem find?_cons_pos {α : Type} {f : α → Bool} {a : α} (l : List α) (h : f a = true) :
    List.find? f (a :: l) = some a := by
  simp [List.find?, h]

theorem dedupAux_first_wins (seen : List String) (l : List PolicyRecord) :
    ∀ r ∈ dedupAux seen l, ∀ k, r.dedupUrl = some k →
      k ∉ seen ∧ l.find? (fun x => decide (x.dedupUrl = some k)) = some r := by
  induction l generalizing seen with
  | nil => intro r hr; simp [dedupAux] at hr
  | cons p rest ih =>
      intro r hr k hk
      cases hu : p.dedupUrl with
      | some u =>
          rw [dedupAux_cons_some hu] at hr
          by_cases hs : u ∈ seen
          · rw [if_pos hs] at hr
            rcases ih seen r hr k hk with ⟨hk1, hk2⟩
            have hku : k ≠ u := fun h => hk1 (h ▸ hs)
            have hne : (fun x : PolicyRecord => decide (x.dedupUrl = some k)) p = false := by
              simp only [hu, decide_eq_false_iff_not]
              intro h
              exact hku (Option.some_inj.mp h).symm
            exact ⟨hk1, (find?_cons_neg rest hne).trans hk2⟩
          · rw [if_neg hs] at hr
            rcases List.mem_cons.mp hr with hr | hr
            · subst hr
              rw [hu] at hk
              have hk' := Option.some_inj.mp hk
              subst hk'
              have hpos : (fun x : PolicyRecord => decide (x.dedupUrl = some u)) r = true := by
                simp [hu]
              exact ⟨hs, find?_cons_pos rest hpos⟩
            · rcases ih (u :: seen) r hr k hk with ⟨hk1, hk2⟩
              have hku : k ≠ u := by
                intro h; exact hk1 (by simp [h])
              have hne : (fun x : PolicyRecord => decide (x.dedupUrl = some k)) p = false := by
                simp only [hu, decide_eq_false_iff_not]
                intro h
                exact hku (Option.some_inj.mp h).symm
              refine ⟨fun hm => hk1 (List.mem_cons_of_mem _ hm), ?_⟩
              exact (find?_cons_neg rest hne).trans hk2
      | none =>
          rw [dedupAux_cons_none hu] at hr
          rcases List.mem_cons.mp hr with hr | hr
          · subst hr; rw [hu] at hk; cases hk
          · rcases ih seen r hr k hk with ⟨hk1, hk2⟩
            have hne : (fun x : PolicyRecord => decide (x.dedupUrl = some k)) p = false := by
              simp [hu]
            exact ⟨hk1, (find?_cons_neg rest hne).trans hk2⟩

theorem dedupAux_pairwise (seen : List String) (l : List PolicyRecord) :
    (dedupAux seen l).Pairwise noSharedUrl := by
  induction l generalizing seen with
  | nil => simp [dedupAux]
  | cons p rest ih =>
      cases hu : p.dedupUrl with
      | some u =>
          rw [dedupAux_cons_some hu]
          by_cases hs : u ∈ seen
          · rw [if_pos hs]
            exact ih seen
          · rw [if_neg hs]
            refine List.Pairwise.cons ?_ (ih (u :: seen))
            intro b hb k hk hbk
            rw [hu] at hk
            have hmem := (dedupAux_first_wins (u :: seen) rest b hb k hbk).1
            exact hmem (by simp [← Option.some_inj.mp hk])
      | none =>
          rw [dedupAux_cons_none hu]
          refine List.Pairwise.cons ?_ (ih seen)
          intro b hb k hk
          rw [hu] at hk; cases hk

theorem dedupAux_filter_keyless (seen : List String) (l : List PolicyRecord) :
    (dedupAux seen l).filter (fun r => r.dedupUrl.isNone)
      = l.filter (fun r => r.dedupUrl.isNone) := by
  induction l generalizing seen with
  | nil => simp [dedupAux]
  | cons p rest ih =>
      cases hu : p.dedupUrl with
      | some u =>
          by_cases hs : u ∈ seen
          · rw [dedupAux_cons_some hu, if_pos hs, ih seen, List.filter_cons]
            simp [hu]
          · rw [dedupAux_cons_some hu, if_neg hs, List.filter_cons, List.filter_cons,
              ih (u :: seen)]
      | none =>
          rw [dedupAux_cons_none hu, List.filter_cons, List.filter_cons, ih seen]

theorem dedupAux_countP_le_one (seen : List String) (l : List PolicyRecord) (k : String) :
    (dedupAux seen l).countP (fun r => decide (r.dedupUrl = some k)) ≤ 1
      ∧ (k ∈ seen → (dedupAux seen l).countP (fun r => decide (r.dedupUrl = some k)) = 0) := by
  induction l generalizing seen with
  | nil => simp [dedupAux]
  | cons p rest ih =>
      cases hu : p.dedupUrl with
      | some u =>
          by_cases hs : u ∈ seen
          · rw [dedupAux_cons_some hu, if_pos hs]
            exact ih seen
          · rw [dedupAux_cons_some hu, if_neg hs]
            by_cases hku : k = u
            · subst hku
              have h0 : (dedupAux (k :: seen) rest).countP
                  (fun r => decide (r.dedupUrl = some k)) = 0 :=
                (ih (k :: seen)).2 (List.mem_cons_self k seen)
              constructor
              · rw [List.countP_cons, h0]
                simp [hu]
              · intro hks; exact absurd hks hs
            · have hne : (fun r : PolicyRecord => decide (r.dedupUrl = some k)) p = false := by
                simp only [hu, decide_eq_false_iff_not]
                intro h
                exact hku (Option.some_inj.mp h).symm
              constructor
              · rw [List.countP_cons]
                simp only [hne, if_false]
                simpa using (ih (u :: seen)).1
              · intro hks
                rw [List.countP_cons]
                simp only [hne, if_false]
                simpa using (ih (u :: seen)).2 (List.mem_cons_of_mem _ hks)
      | none =>
          have hne : (fun r : PolicyRecord => decide (r.dedupUrl = some k)) p = false := by
            simp [hu]
          rw [dedupAux_cons_none hu]
          constructor
          · rw [List.countP_cons]
            simp only [hne, if_false]
            simpa using (ih seen).1
          · intro hks
            rw [List.countP_cons]
            simp only [hne, if_false]
            simpa using (ih seen).2 hks

theorem dedup_policies_pairwise (l : List PolicyRecord) :
    (dedup_policies l).Pairwise noSharedUrl :=
  dedupAux_pairwise [] l

theorem finalPolicies_pairwise {R : PolicyRecord → PolicyRecord → Prop} (hsym : Symmetric R)
    (sh : List PolicyRecord → List PolicyRecord) (m : Nat) (d : List PolicyRecord)
    (hsh : (sh d).Perm d) (hd : d.Pairwise R) : (finalPolicies sh m d).Pairwise R := by
  unfold finalPolicies
  by_cases h : m < d.length
  · rw [if_pos h]
    exact ((hsh.pairwise_iff (fun hab => hsym hab)).mpr hd).sublist (List.take_sublist m (sh d))
  · rw [if_neg h]
    exact hd

theorem finalPolicies_subset (sh : List PolicyRecord → List PolicyRecord) (m : Nat)
    (d : List PolicyRecord) (hsh : (sh d).Perm d) :
    ∀ r ∈ finalPolicies sh m d, r ∈ d := by
  intro r hr
  unfold finalPolicies at hr
  by_cases h : m < d.length
  · rw [if_pos h] at hr
    exact hsh.mem_iff.mp ((List.take_sublist m (sh d)).subset hr)
  · rw [if_neg h] at hr
    exact hr

theorem emptyOutcome_ne_results (age : Option Int) (out : List PolicyRecord) :
    emptyOutcome age ≠ SearchOutcome.results out := by
  intro h
  cases age with
  | none => simp [emptyOutcome] at h
  | some a =>
      simp only [emptyOutcome] at h
      split at h
      · exact SearchOutcome.noConfusion h
      · exact SearchOutcome.noConfusion h

theorem search_policies_results_inv
    (ys : Option Int → Option String → Option String → Nat → Bool → List YouthPolicy)
    (bs : Option String → Nat → List BizPolicy) (als : Option String → Nat → List AlioPolicy)
    (sh : List PolicyRecord → List PolicyRecord) (info : UserInfo) (out : List PolicyRecord)
    (h : UnifiedPolicyChatbot.search_policies ys bs als sh info = SearchOutcome.results out) :
    out = finalPolicies sh info.max_results (dedup_policies (mergedCandidates ys bs als info)) := by
  simp only [UnifiedPolicyChatbot.search_policies] at h
  by_cases he :
      (finalPolicies sh info.max_results
        (dedup_policies (mergedCandidates ys bs als info))).isEmpty = true
  · rw [if_pos he] at h
    exact absurd h (emptyOutcome_ne_results info.age out)
  · rw [if_neg he] at h
    exact (SearchOutcome.results.inj h).symm

/-- C1: for every intent, the federation returns at most `max_results`
records: when the deduplicated candidate set exceeds `max_results` it is
shuffled and truncated to exactly `max_results`, and otherwise it is returned
whole. -/
theorem c1_result_count_bounded
    (sh : List PolicyRecord → List PolicyRecord) (hsh : ∀ l, (sh l).Perm l) :
    (∀ (m : Nat) (d : List PolicyRecord),
        (finalPolicies sh m d).length ≤ m
          ∧ (m < d.length →
              finalPolicies sh m d = (sh d).take m ∧ (finalPolicies sh m d).length = m)
          ∧ (d.length ≤ m → finalPolicies sh m d = d))
      ∧ (∀ ys bs als info out,
          UnifiedPolicyChatbot.search_policies ys bs als sh info = SearchOutcome.results out →
            out.length ≤ info.max_results) := by
  have hcore : ∀ (m : Nat) (d : List PolicyRecord),
      (finalPolicies sh m d).length ≤ m
        ∧ (m < d.length →
            finalPolicies sh m d = (sh d).take m ∧ (finalPolicies sh m d).length = m)
        ∧ (d.length ≤ m → finalPolicies sh m d = d) := by
    intro m d
    by_cases h : m < d.length
    · have hfin : finalPolicies sh m d = (sh d).take m := by
        unfold finalPolicies
        rw [if_pos h]
      have hlen : (finalPolicies sh m d).length = m := by
        rw [hfin, List.length_take, (hsh d).length_eq]
        omega
      exact ⟨le_of_eq hlen, fun _ => ⟨hfin, hlen⟩, fun hle => absurd h (not_lt.mpr hle)⟩
    · have hfin : finalPolicies sh m d = d := by
        unfold finalPolicies
        rw [if_neg h]
      refine ⟨?_, fun hlt => absurd hlt h, fun _ => hfin⟩
      rw [hfin]
      omega
  refine ⟨hcore, ?_⟩
  intro ys bs als info out h
  rw [search_policies_results_inv ys bs als sh info out h]
  exact (hcore info.max_results _).1

def rBizA : BizPolicy :=
  { title := Json.str "A", agency := Json.str "a", category := Json.str "c"
    summary := Json.str "s", period := Json.str "p"
    url := "https://www.bizinfo.go.kr/a" }

def rBizB : BizPolicy :=
  { title := Json.str "B", agency := Json.str "a", category := Json.str "c"
    summary := Json.str "s", period := Json.str "p"
    url := "https://www.bizinfo.go.kr/b" }

def rBizC : BizPolicy :=
  { title := Json.str "C", agency := Json.str "a", category := Json.str "c"
    summary := Json.str "s", period := Json.str "p"
    url := "https://www.bizinfo.go.kr/c" }

/-- Witness for C1 at a concrete shuffle (the identity permutation), budget 2
and three deduplicated candidates. -/
theorem c1_result_count_bounded_witness :
    (finalPolicies id 2 [PolicyRecord.biz rBizA, PolicyRecord.biz rBizB,
        PolicyRecord.biz rBizC]).length ≤ 2
      ∧ finalPolicies id 2 [PolicyRecord.biz rBizA, PolicyRecord.biz rBizB,
          PolicyRecord.biz rBizC] = [PolicyRecord.biz rBizA, PolicyRecord.biz rBizB] :=
  ⟨((c1_result_count_bounded id (fun l => List.Perm.refl l)).1 2 _).1, rfl⟩

/-- C2: no two records of a federation result share the same truthy dedup
key (`refUrlAddr1` falling back to `url`); in the dedup pass the first
occurrence of a key in merge order is kept and later ones are dropped, and
every record whose dedup key is absent or empty is kept unconditionally. -/
theorem c2_dedup_invariant
    (sh : List PolicyRecord → List PolicyRecord) (hsh : ∀ l, (sh l).Perm l) :
    (∀ ys bs als info out,
        UnifiedPolicyChatbot.search_policies ys bs als sh info = SearchOutcome.results out →
          out.Pairwise noSharedUrl)
      ∧ (∀ l : List PolicyRecord, (dedup_policies l).Pairwise noSharedUrl)
      ∧ (∀ (l : List PolicyRecord) (r : PolicyRecord) (k : String),
          r ∈ dedup_policies l → r.dedupUrl = some k →
            l.find? (fun x => decide (x.dedupUrl = some k)) = some r)
      ∧ (∀ l : List PolicyRecord,
          (dedup_policies l).filter (fun r => r.dedupUrl.isNone)
            = l.filter (fun r => r.dedupUrl.isNone)) := by
  refine ⟨?_, dedup_policies_pairwise, ?_, dedupAux_filter_keyless []⟩
  · intro ys bs als info out h
    rw [search_policies_results_inv ys bs als sh info out h]
    exact finalPolicies_pairwise noSharedUrl_symm sh info.max_results _ (hsh _)
      (dedup_policies_pairwise _)
  · intro l r k hr hk
    exact (dedupAux_first_wins [] l r hr k hk).2

def rYouthKeyless : YouthPolicy :=
  { sprtTrgtMinAge := .absent, sprtTrgtMaxAge := .absent, rgtrInstCdNm := ""
    lclsfNm := "", plcyNm := "키없음", plcyExplnCn := "", refUrlAddr1 := none }

def rBizA2 : BizPolicy :=
  { title := Json.str "A2", agency := Json.str "a", category := Json.str "c"
    summary := Json.str "s", period := Json.str "p"
    url := "https://www.bizinfo.go.kr/a" }

/-- Witness for C2: two records sharing a url plus one keyless record; the
dedup pass keeps the first url occurrence and the keyless record, and the
result is pairwise key-distinct. -/
theorem c2_dedup_invariant_witness :
    (dedup_policies [PolicyRecord.biz rBizA, PolicyRecord.biz rBizA2,
        PolicyRecord.youth rYouthKeyless]).Pairwise noSharedUrl
      ∧ dedup_policies [PolicyRecord.biz rBizA, PolicyRecord.biz rBizA2,
          PolicyRecord.youth rYouthKeyless]
          = [PolicyRecord.biz rBizA, PolicyRecord.youth rYouthKeyless] :=
  ⟨(c2_dedup_invariant id (fun l => List.Perm.refl l)).2.1 _, rfl⟩

def emptyYouthSearch : Option Int → Option String → Option String → Nat → Bool → List YouthPolicy :=
  fun _ _ _ _ _ => []

def emptyBizSearch : Option String → Nat → List BizPolicy :=
  fun _ _ => []

def emptyAlioSearch : Option String → Nat → List AlioPolicy :=
  fun _ _ => []

/-- A probe Youth adapter that always offers one record, used to observe
whether the federation consults the Youth source. -/
def probeYouthSearch : Option Int → Option String → Option String → Nat → Bool → List YouthPolicy :=
  fun _ _ _ _ _ => [rYouthKeyless]

def probeBizSearch : Option String → Nat → List BizPolicy :=
  fun _ _ => [rBizA]

def rAlioProbe : AlioPolicy :=
  { title := Json.str "alio", agency := Json.str "a", summary := Json.str "s"
    lifecycle := Json.str "l", target := Json.str "t", method := Json.str "m"
    inquiry := Json.str "i", url := "", category := Json.str "c" }

def probeAlioSearch : Option String → Nat → List AlioPolicy :=
  fun _ _ => [rAlioProbe]

theorem search_of_empty_merged
    (ys : Option Int → Option String → Option String → Nat → Bool → List YouthPolicy)
    (bs : Option String → Nat → List BizPolicy) (als : Option String → Nat → List AlioPolicy)
    (sh : List PolicyRecord → List PolicyRecord) (info : UserInfo)
    (h : mergedCandidates ys bs als info = []) :
    UnifiedPolicyChatbot.search_policies ys bs als sh info = emptyOutcome info.age := by
  simp [UnifiedPolicyChatbot.search_policies, h, dedup_policies, dedupAux, finalPolicies]

theorem dedup_policies_singleton (r : PolicyRecord) : dedup_policies [r] = [r] := by
  cases hu : r.dedupUrl with
  | some u =>
      rw [dedup_policies, dedupAux_cons_some hu, if_neg (List.not_mem_nil u)]
      rfl
  | none =>
      rw [dedup_policies, dedupAux_cons_none hu]
      rfl

theorem search_of_singleton
    (ys : Option Int → Option String → Option String → Nat → Bool → List YouthPolicy)
    (bs : Option String → Nat → List BizPolicy) (als : Option String → Nat → List AlioPolicy)
    (sh : List PolicyRecord → List PolicyRecord) (info : UserInfo) (r : PolicyRecord)
    (hm : 1 ≤ info.max_results)
    (h : mergedCandidates ys bs als info = [r]) :
    UnifiedPolicyChatbot.search_policies ys bs als sh info = SearchOutcome.results [r] := by
  have hfin : finalPolicies sh info.max_results [r] = [r] := by
    unfold finalPolicies
    rw [if_neg (by simp; omega)]
  simp [UnifiedPolicyChatbot.search_policies, h, dedup_policies_singleton, hfin]

/-- C3 (amended): the Youth adapter is consulted exactly when the segment is
Youth or Both and (`all_ages`, or age unset, or `1 ≤ age ≤ 39` — the code's
`age and age <= 39` is falsy at age 0, so age 0 does NOT consult Youth);
BizInfo and AlioPlus are consulted exactly when the segment is Business, Both
or Senior; and an intent with age 45, segment Youth and `all_ages` unset
consults no adapter and yields the distinguishable age-context outcome. -/
theorem c3_segment_gating_amended :
    (∀ info : UserInfo, 1 ≤ info.max_results →
        ((UnifiedPolicyChatbot.search_policies probeYouthSearch emptyBizSearch emptyAlioSearch
            id info = SearchOutcome.results [PolicyRecord.youth rYouthKeyless])
              ↔ youthGate info = true)
          ∧ ((UnifiedPolicyChatbot.search_policies emptyYouthSearch probeBizSearch
              emptyAlioSearch id info = SearchOutcome.results [PolicyRecord.biz rBizA])
                ↔ bizGate info = true)
          ∧ ((UnifiedPolicyChatbot.search_policies emptyYouthSearch emptyBizSearch
              probeAlioSearch id info = SearchOutcome.results [PolicyRecord.alio rAlioProbe])
                ↔ bizGate info = true))
      ∧ (∀ ys bs als sh reg kw es m,
          UnifiedPolicyChatbot.search_policies ys bs als sh
            ⟨some 45, reg, none, kw, "youth", es, false, m⟩ = SearchOutcome.ageContext 45)
      ∧ (∀ info : UserInfo, youthGate info
          = ((info.target == "youth" || info.target == "both") &&
              (info.all_ages || info.age.isNone ||
                (match info.age with
                 | some a => a != 0 && decide (a ≤ 39)
                 | none => false)))) := by
  refine ⟨?_, ?_, fun info => rfl⟩
  · intro info hm
    refine ⟨?_, ?_, ?_⟩
    · cases hyg : youthGate info with
      | false =>
          have hmc : mergedCandidates probeYouthSearch emptyBizSearch emptyAlioSearch info
              = [] := by
            simp [mergedCandidates, hyg, emptyBizSearch, emptyAlioSearch]
          constructor
          · intro h
            rw [search_of_empty_merged _ _ _ _ _ hmc] at h
            exact absurd h (emptyOutcome_ne_results info.age _)
          · intro h
            exact Bool.noConfusion h
      | true =>
          have hmc : mergedCandidates probeYouthSearch emptyBizSearch emptyAlioSearch info
              = [PolicyRecord.youth rYouthKeyless] := by
            simp [mergedCandidates, hyg, probeYouthSearch, emptyBizSearch, emptyAlioSearch]
          exact ⟨fun _ => rfl,
            fun _ => search_of_singleton _ _ _ _ _ _ hm hmc⟩
    · cases hbg : bizGate info with
      | false =>
          have hmc : mergedCandidates emptyYouthSearch probeBizSearch emptyAlioSearch info
              = [] := by
            simp [mergedCandidates, hbg, emptyYouthSearch]
          constructor
          · intro h
            rw [search_of_empty_merged _ _ _ _ _ hmc] at h
            exact absurd h (emptyOutcome_ne_results info.age _)
          · intro h
            exact Bool.noConfusion h
      | true =>
          have hmc : mergedCandidates emptyYouthSearch probeBizSearch emptyAlioSearch info
              = [PolicyRecord.biz rBizA] := by
            simp [mergedCandidates, hbg, probeBizSearch, emptyYouthSearch, emptyAlioSearch]
          exact ⟨fun _ => rfl,
            fun _ => search_of_singleton _ _ _ _ _ _ hm hmc⟩
    · cases hbg : bizGate info with
      | false =>
          have hmc : mergedCandidates emptyYouthSearch emptyBizSearch probeAlioSearch info
              = [] := by
            simp [mergedCandidates, hbg, emptyYouthSearch]
          constructor
          · intro h
            rw [search_of_empty_merged _ _ _ _ _ hmc] at h
            exact absurd h (emptyOutcome_ne_results info.age _)
          · intro h
            exact Bool.noConfusion h
      | true =>
          have hmc : mergedCandidates emptyYouthSearch emptyBizSearch probeAlioSearch info
              = [PolicyRecord.alio rAlioProbe] := by
            simp [mergedCandidates, hbg, probeAlioSearch, emptyYouthSearch, emptyBizSearch]
          exact ⟨fun _ => rfl,
            fun _ => search_of_singleton _ _ _ _ _ _ hm hmc⟩
  · intro ys bs als sh reg kw es m
    have h1 : youthGate ⟨some 45, reg, none, kw, "youth", es, false, m⟩ = false := rfl
    have h2 : bizGate ⟨some 45, reg, none, kw, "youth", es, false, m⟩ = false := rfl
    have hmc : mergedCandidates ys bs als ⟨some 45, reg, none, kw, "youth", es, false, m⟩
        = [] := by
      simp [mergedCandidates, h1, h2]
    rw [search_of_empty_merged _ _ _ _ _ hmc]
    rfl

/-- The claim's Youth gate, in the spec's own words: segment Youth or Both
and (`allAges`, or age unset, or age ≤ 39) — with no exclusion of age 0. -/
def claimedYouthGate (info : UserInfo) : Bool :=
  (info.target == "youth" || info.target == "both") &&
    (info.all_ages || info.age.isNone ||
      (match info.age with
       | some a => decide (a ≤ 39)
       | none => false))

def infoAgeZero : UserInfo :=
  { age := some 0, region := none, category := none, keyword := none
    target := "youth", explicit_search := true, all_ages := false, max_results := 3 }

/-- C3 counterexample: an intent with age 0 and segment Youth satisfies the
claim's gate (0 ≤ 39), so the claim says the Youth adapter is consulted; but
`age and age <= 39` is falsy at 0, so the code consults nothing and returns
the plain empty outcome even though the probe Youth adapter offers a record
(the claim would require `results [rYouthKeyless]`). -/
theorem c3_segment_gating_counterexample :
    claimedYouthGate infoAgeZero = true
      ∧ UnifiedPolicyChatbot.search_policies probeYouthSearch emptyBizSearch emptyAlioSearch id
          infoAgeZero = SearchOutcome.empty
      ∧ SearchOutcome.empty ≠ SearchOutcome.results [PolicyRecord.youth rYouthKeyless] :=
  ⟨rfl, rfl, fun h => SearchOutcome.noConfusion h⟩

def infoYouthW : UserInfo :=
  { age := none, region := none, category := none, keyword := none
    target := "youth", explicit_search := true, all_ages := false, max_results := 3 }

/-- Witness for C3 (amended) at a concrete intent whose Youth gate holds. -/
theorem c3_segment_gating_amended_witness :
    1 ≤ infoYouthW.max_results
      ∧ UnifiedPolicyChatbot.search_policies probeYouthSearch emptyBizSearch emptyAlioSearch id
          infoYouthW = SearchOutcome.results [PolicyRecord.youth rYouthKeyless] :=
  ⟨by decide, ((c3_segment_gating_amended.1 infoYouthW (by decide)).1).mpr (by decide)⟩

/-- C4: any message containing 이유, 뭐야 or 설명 yields
`explicit_search = false`, overriding every earlier keyword rule (the
override is applied after them; the later greeting rule can only force
`false` as well). -/
theorem c4_general_question_override (m : String)
    (h : (strContains m "이유" || strContains m "뭐야" || strContains m "설명") = true) :
    (UnifiedPolicyChatbot.extract_user_info m).explicit_search = false := by
  simp [UnifiedPolicyChatbot.extract_user_info, h]

/-- Witness for C4: a message that carries a policy keyword, a search verb
and the trigger 줘, yet contains 이유 and is therefore not a search. -/
theorem c4_general_question_override_witness :
    (strContains "취업 정책 이유 찾아줘" "이유" || strContains "취업 정책 이유 찾아줘" "뭐야"
        || strContains "취업 정책 이유 찾아줘" "설명") = true
      ∧ (UnifiedPolicyChatbot.extract_user_info "취업 정책 이유 찾아줘").explicit_search
          = false :=
  ⟨by decide, c4_general_question_override "취업 정책 이유 찾아줘" (by decide)⟩

theorem youth_search_subset_filtered (policies : List YouthPolicy)
    (sh : List YouthPolicy → List YouthPolicy) (hsh : ∀ l, (sh l).Perm l)
    (age : Option Int) (region category keyword : Option String) (m : Nat) (all_ages : Bool) :
    ∀ p ∈ YouthPolicyAPI.search_policies policies sh age region category keyword m all_ages,
      (youthAgeCheck age all_ages p && youthRegionCheck region p &&
        youthCategoryCheck category p && youthKeywordCheck keyword p) = true := by
  intro p hp
  simp only [YouthPolicyAPI.search_policies] at hp
  have hp2 : p ∈ policies.filter (fun p =>
      youthAgeCheck age all_ages p && youthRegionCheck region p &&
        youthCategoryCheck category p && youthKeywordCheck keyword p) := by
    by_cases h : m < (policies.filter (fun p =>
        youthAgeCheck age all_ages p && youthRegionCheck region p &&
          youthCategoryCheck category p && youthKeywordCheck keyword p)).length
    · rw [if_pos h] at hp
      exact (hsh _).mem_iff.mp ((List.take_sublist _ _).subset hp)
    · rw [if_neg h] at hp
      exact hp
  exact (List.mem_filter.mp hp2).2

theorem youthAgeCheck_ok_containment {p : YouthPolicy} {mn mx : Int}
    (hmn : p.sprtTrgtMinAge.parse 0 = .ok mn) (hmx : p.sprtTrgtMaxAge.parse 999 = .ok mx)
    {a : Int} (ha : a ≠ 0) (hchk : youthAgeCheck (some a) false p = true) :
    0 ≤ mn ∧ mn ≤ 120 ∧ 0 ≤ mx ∧ mx ≤ 120 ∧ mn ≤ a ∧ a ≤ mx := by
  have ha' : (a != 0) = true := by simp [ha]
  simp only [youthAgeCheck, hmn, hmx, pyTruthyOptInt, ha', Bool.or_false, if_true,
    Bool.false_eq_true, if_false] at hchk
  split at hchk
  · exact absurd hchk (by simp)
  · rename_i hbounds
    simp only [Bool.or_eq_true, decide_eq_true_eq, not_or] at hbounds
    simp only [Bool.and_eq_true, decide_eq_true_eq] at hchk
    omega

theorem youthAgeCheck_ok_min_le_max {p : YouthPolicy} {mn mx : Int} {age : Option Int}
    {all_ages : Bool}
    (hmn : p.sprtTrgtMinAge.parse 0 = .ok mn) (hmx : p.sprtTrgtMaxAge.parse 999 = .ok mx)
    (hactive : all_ages = true ∨ ∃ a : Int, age = some a ∧ a ≠ 0)
    (hchk : youthAgeCheck age all_ages p = true) : mn ≤ mx := by
  cases hall : all_ages with
  | true =>
      simp only [youthAgeCheck, hall, hmn, hmx, Bool.or_true, if_true] at hchk
      split at hchk
      · exact absurd hchk (by simp)
      · simp only [decide_eq_true_eq] at hchk
        omega
  | false =>
      rcases hactive with h | ⟨a, hage, ha⟩
      · exact absurd (hall ▸ h) Bool.noConfusion
      · subst hage
        have hcontain := youthAgeCheck_ok_containment hmn hmx ha (hall ▸ hchk)
        omega

/-- C5 (amended): under a set nonzero age with `all_ages` unset, every Youth
record returned whose age fields parse as integers satisfies the `[0,120]`
bounds and `minAge ≤ age ≤ maxAge`; records whose age fields fail `int()`
bypass the age filter via `except: pass` and can still be returned. -/
theorem c5_youth_age_filter_amended
    (policies : List YouthPolicy) (sh : List YouthPolicy → List YouthPolicy)
    (hsh : ∀ l, (sh l).Perm l)
    (region category keyword : Option String) (m : Nat) (a : Int) (ha : a ≠ 0) :
    ∀ p ∈ YouthPolicyAPI.search_policies policies sh (some a) region category keyword m false,
      ∀ mn mx : Int, p.sprtTrgtMinAge.parse 0 = .ok mn → p.sprtTrgtMaxAge.parse 999 = .ok mx →
        0 ≤ mn ∧ mn ≤ 120 ∧ 0 ≤ mx ∧ mx ≤ 120 ∧ mn ≤ a ∧ a ≤ mx := by
  intro p hp mn mx hmn hmx
  have hc := youth_search_subset_filtered policies sh hsh (some a) region category keyword
    m false p hp
  simp only [Bool.and_eq_true] at hc
  exact youthAgeCheck_ok_containment hmn hmx ha hc.1.1.1

def rYouthBadAge : YouthPolicy :=
  { sprtTrgtMinAge := .bad, sprtTrgtMaxAge := .bad, rgtrInstCdNm := ""
    lclsfNm := "", plcyNm := "나쁜나이", plcyExplnCn := "", refUrlAddr1 := none }

/-- C5 counterexample: a Youth record whose age fields cannot be parsed as
integers is returned under a set age of 30 — `int()` raises, `except: pass`
keeps the record — contradicting the claim that such records are never
returned. -/
theorem c5_youth_age_filter_counterexample :
    YouthPolicyAPI.search_policies [rYouthBadAge] id (some 30) none none none 3 false
        = [rYouthBadAge]
      ∧ rYouthBadAge.sprtTrgtMinAge = AgeField.bad :=
  ⟨rfl, rfl⟩

def rYouthGood : YouthPolicy :=
  { sprtTrgtMinAge := .val 20, sprtTrgtMaxAge := .val 35, rgtrInstCdNm := "서울"
    lclsfNm := "일자리", plcyNm := "청년취업지원", plcyExplnCn := ""
    refUrlAddr1 := some "https://www.youthcenter.go.kr/p/1" }

/-- Witness for C5 (amended) at a parseable record passing the filter. -/
theorem c5_youth_age_filter_amended_witness :
    0 ≤ (20 : Int) ∧ (20 : Int) ≤ 120 ∧ 0 ≤ (35 : Int) ∧ (35 : Int) ≤ 120
      ∧ (20 : Int) ≤ 25 ∧ (25 : Int) ≤ 35 :=
  c5_youth_age_filter_amended [rYouthGood] id (fun l => List.Perm.refl l) none none none 3 25
    (by decide) rYouthGood (by decide) 20 35 rfl rfl

/-- C6 (amended): a Youth record whose parsed `minAge` exceeds its parsed
`maxAge` is dropped (not clamped) whenever the age filter is active —
`all_ages` set, or a set nonzero age — but when the intent has neither, the
age block of lines 71-90 is skipped entirely and the record is kept. -/
theorem c6_min_gt_max_amended
    (policies : List YouthPolicy) (sh : List YouthPolicy → List YouthPolicy)
    (hsh : ∀ l, (sh l).Perm l)
    (age : Option Int) (region category keyword : Option String) (m : Nat) (all_ages : Bool)
    (hactive : all_ages = true ∨ ∃ a : Int, age = some a ∧ a ≠ 0) :
    ∀ p ∈ YouthPolicyAPI.search_policies policies sh age region category keyword m all_ages,
      ∀ mn mx : Int, p.sprtTrgtMinAge.parse 0 = .ok mn → p.sprtTrgtMaxAge.parse 999 = .ok mx →
        mn ≤ mx := by
  intro p hp mn mx hmn hmx
  have hc := youth_search_subset_filtered policies sh hsh age region category keyword
    m all_ages p hp
  simp only [Bool.and_eq_true] at hc
  exact youthAgeCheck_ok_min_le_max hmn hmx hactive hc.1.1.1

def rYouthMinGtMax : YouthPolicy :=
  { sprtTrgtMinAge := .val 50, sprtTrgtMaxAge := .val 20, rgtrInstCdNm := ""
    lclsfNm := "", plcyNm := "역전나이", plcyExplnCn := "", refUrlAddr1 := none }

/-- C6 counterexample: with no age and no `all_ages` flag the age block is
never entered, so a record with `minAge = 50 > 20 = maxAge` is returned
rather than dropped — contradicting "dropped for every intent". -/
theorem c6_min_gt_max_counterexample :
    YouthPolicyAPI.search_policies [rYouthMinGtMax] id none none none none 3 false
        = [rYouthMinGtMax]
      ∧ rYouthMinGtMax.sprtTrgtMinAge.parse 0 = .ok 50
      ∧ rYouthMinGtMax.sprtTrgtMaxAge.parse 999 = .ok 20
      ∧ ¬ ((50 : Int) ≤ 20) :=
  ⟨rfl, rfl, rfl, by decide⟩

/-- Witness for C6 (amended): under an active age filter the surviving
record's bounds are ordered, and the inverted record is in fact dropped. -/
theorem c6_min_gt_max_amended_witness :
    (20 : Int) ≤ 35
      ∧ YouthPolicyAPI.search_policies [rYouthMinGtMax] id (some 25) none none none 3 false
          = [] :=
  ⟨c6_min_gt_max_amended [rYouthGood] id (fun l => List.Perm.refl l) (some 25) none none none
      3 false (Or.inr ⟨25, rfl, by decide⟩) rYouthGood (by decide) 20 35 rfl rfl,
    rfl⟩

theorem tryExact_range (f : Option Nat) (next : Option Int) (a : Int)
    (h : tryExact f next = some a) : (0 ≤ a ∧ a ≤ 120) ∨ next = some a := by
  cases f with
  | some v =>
      simp only [tryExact] at h
      by_cases hv : v ≤ 120
      · rw [if_pos hv] at h
        have ha := Option.some_inj.mp h
        left
        omega
      · rw [if_neg hv] at h
        right
        exact h
  | none =>
      right
      exact h

theorem extractAge_range (l : List Char) (a : Int) (h : extractAge l = some a) :
    (0 ≤ a ∧ a ≤ 120) ∨ a = 125 := by
  have hchain : ∀ f1 f2 f3 : Option Nat,
      tryExact f1 (tryExact f2 (tryExact f3 none)) = some a → 0 ≤ a ∧ a ≤ 120 := by
    intro f1 f2 f3 hc
    rcases tryExact_range f1 _ a hc with h1 | h1
    · exact h1
    rcases tryExact_range f2 _ a h1 with h2 | h2
    · exact h2
    rcases tryExact_range f3 _ a h2 with h3 | h3
    · exact h3
    · cases h3
  cases hd : searchDecade l with
  | some n =>
      simp only [extractAge, hd] at h
      by_cases hn : (1 ≤ n && n ≤ 12) = true
      · rw [if_pos hn] at h
        have ha := Option.some_inj.mp h
        simp only [Bool.and_eq_true, decide_eq_true_eq] at hn
        omega
      · rw [if_neg hn] at h
        exact Or.inl (hchain _ _ _ h)
  | none =>
      simp only [extractAge, hd] at h
      exact Or.inl (hchain _ _ _ h)

/-- C7 (amended): whenever the extractor sets an age it lies in `[0,120]` OR
equals 125: the decade pattern accepts `N = 12` and maps it to `12*10+5 =
125` without re-validating the `[0,120]` bound, while the exact patterns
(two digits, hence at most 99) are `[0,120]`-validated; the first successful
pattern wins. -/
theorem c7_extracted_age_range_amended (m : String) (a : Int)
    (h : (UnifiedPolicyChatbot.extract_user_info m).age = some a) :
    (0 ≤ a ∧ a ≤ 120) ∨ a = 125 := by
  have h2 : extractAge m.toList = some a := by
    simpa [UnifiedPolicyChatbot.extract_user_info] using h
  exact extractAge_range _ _ h2

/-- C7 counterexample: the message 12대 extracts age `12*10+5 = 125`, outside
the claimed range `[0,120]`. -/
theorem c7_extracted_age_range_counterexample :
    (UnifiedPolicyChatbot.extract_user_info "12대").age = some 125
      ∧ ¬ ((125 : Int) ≤ 120) :=
  ⟨by decide, by decide⟩

/-- Witness for C7 (amended) on the message 25살. -/
theorem c7_extracted_age_range_amended_witness :
    (0 ≤ (25 : Int) ∧ (25 : Int) ≤ 120) ∨ (25 : Int) = 125 :=
  c7_extracted_age_range_amended "25살" 25 (by decide)

/-- C8 (amended): a single over-fetch count `results_per_api = max(3,
maxResults * 2)` is computed once and handed to every consulted adapter —
the ×2 factor applies to Youth, BizInfo AND AlioPlus alike; the federation
observes each adapter only at that count. -/
theorem c8_overfetch_amended :
    (∀ m : Nat, results_per_api m = max 3 (m * 2))
      ∧ ∀ (info : UserInfo)
          (y₁ y₂ : Option Int → Option String → Option String → Nat → Bool → List YouthPolicy)
          (b₁ b₂ : Option String → Nat → List BizPolicy)
          (a₁ a₂ : Option String → Nat → List AlioPolicy)
          (sh : List PolicyRecord → List PolicyRecord),
          (∀ ag rg kw al, y₁ ag rg kw (results_per_api info.max_results) al
              = y₂ ag rg kw (results_per_api info.max_results) al) →
          (∀ kw, b₁ kw (results_per_api info.max_results)
              = b₂ kw (results_per_api info.max_results)) →
          (∀ kw, a₁ kw (results_per_api info.max_results)
              = a₂ kw (results_per_api info.max_results)) →
          UnifiedPolicyChatbot.search_policies y₁ b₁ a₁ sh info
            = UnifiedPolicyChatbot.search_policies y₂ b₂ a₂ sh info := by
  refine ⟨fun m => rfl, ?_⟩
  intro info y₁ y₂ b₁ b₂ a₁ a₂ sh hy hb ha
  unfold UnifiedPolicyChatbot.search_policies mergedCandidates
  rw [hy, hb, ha]

def rAlioCount (n : Nat) : AlioPolicy :=
  { title := Json.str (toString n), agency := Json.str "a", summary := Json.str "s"
    lifecycle := Json.str "l", target := Json.str "t", method := Json.str "m"
    inquiry := Json.str "i", url := "", category := Json.str "c" }

/-- A probe AlioPlus adapter that records the requested candidate count in
its single record's title. -/
def alioCountProbe : Option String → Nat → List AlioPolicy :=
  fun _ n => [rAlioCount n]

def infoBizW : UserInfo :=
  { age := none, region := none, category := none, keyword := none
    target := "business", explicit_search := true, all_ages := false, max_results := 3 }

/-- C8 counterexample: with `maxResults = 3` the AlioPlus adapter is asked
for `results_per_api 3 = 6` candidates (the shared ×2 factor), not the
claimed `max(3, 3*1) = 3`. -/
theorem c8_overfetch_counterexample :
    UnifiedPolicyChatbot.search_policies emptyYouthSearch emptyBizSearch alioCountProbe id
        infoBizW = SearchOutcome.results [PolicyRecord.alio (rAlioCount 6)]
      ∧ results_per_api 3 = 6
      ∧ max 3 (3 * 1) = 3
      ∧ (6 : Nat) ≠ 3 :=
  ⟨rfl, rfl, rfl, by decide⟩

/-- A Youth adapter that answers only when asked for exactly 6 candidates. -/
def youthOnlyAtSix : Option Int → Option String → Option String → Nat → Bool → List YouthPolicy :=
  fun _ _ _ n _ => if n == 6 then [rYouthKeyless] else []

/-- Witness for C8 (amended): two Youth adapters agreeing at the count
`results_per_api 3 = 6` are indistinguishable to the federation. -/
theorem c8_overfetch_amended_witness :
    UnifiedPolicyChatbot.search_policies probeYouthSearch emptyBizSearch emptyAlioSearch id
        infoYouthW
      = UnifiedPolicyChatbot.search_policies youthOnlyAtSix emptyBizSearch emptyAlioSearch id
          infoYouthW :=
  c8_overfetch_amended.2 infoYouthW probeYouthSearch youthOnlyAtSix emptyBizSearch
    emptyBizSearch emptyAlioSearch emptyAlioSearch id
    (fun _ _ _ _ => rfl) (fun _ => rfl) (fun _ => rfl)

theorem exc_bind_ok {α β : Type} (a : α) (f : α → Except Unit β) :
    (Except.ok a : Except Unit α) >>= f = f a := rfl

theorem exc_bind_error {α β : Type} (f : α → Except Unit β) :
    (Except.error () : Except Unit α) >>= f = Except.error () := rfl

theorem mkBizPolicy_url {fields : List (String × Json)} {p : BizPolicy}
    (h : mkBizPolicy fields = .ok p) :
    ∃ s : String, p.url = "https://www.bizinfo.go.kr" ++ s
      ∧ (lookupJ fields "pblancUrl" = none → s = "") := by
  cases hl : lookupJ fields "pblancUrl" with
  | none =>
      simp only [mkBizPolicy, hl, exc_bind_ok] at h
      refine ⟨"", ?_, fun _ => rfl⟩
      rw [← Except.ok.inj h]
  | some v =>
      cases v with
      | str s =>
          simp only [mkBizPolicy, hl, exc_bind_ok] at h
          refine ⟨s, ?_, ?_⟩
          · rw [← Except.ok.inj h]
          · intro hnone
            cases hnone
      | obj fs => simp only [mkBizPolicy, hl, exc_bind_error] at h; cases h
      | arr es => simp only [mkBizPolicy, hl, exc_bind_error] at h; cases h
      | num n => simp only [mkBizPolicy, hl, exc_bind_error] at h; cases h
      | bool b => simp only [mkBizPolicy, hl, exc_bind_error] at h; cases h
      | null => simp only [mkBizPolicy, hl, exc_bind_error] at h; cases h

theorem mem_buildBizPolicies {l : List Json} {ps : List BizPolicy}
    (h : buildBizPolicies l = .ok ps) :
    ∀ r ∈ ps, ∃ fields, mkBizPolicy fields = .ok r := by
  induction l generalizing ps with
  | nil =>
      have hps : ps = [] := (Except.ok.inj h).symm
      subst hps
      intro r hr
      cases hr
  | cons j rest ih =>
      cases j with
      | obj fields =>
          simp only [buildBizPolicies] at h
          cases hmk : mkBizPolicy fields with
          | error e => rw [hmk, exc_bind_error] at h; cases h
          | ok p =>
              rw [hmk, exc_bind_ok] at h
              cases hb : buildBizPolicies rest with
              | error e => rw [hb, exc_bind_error] at h; cases h
              | ok tail =>
                  rw [hb, exc_bind_ok] at h
                  have hps : p :: tail = ps := Except.ok.inj h
                  subst hps
                  intro r hr
                  rcases List.mem_cons.mp hr with hr | hr
                  · subst hr; exact ⟨fields, hmk⟩
                  · exact ih hb r hr
      | arr es => simp only [buildBizPolicies] at h; cases h
      | str s => simp only [buildBizPolicies] at h; cases h
      | num n => simp only [buildBizPolicies] at h; cases h
      | bool b => simp only [buildBizPolicies] at h; cases h
      | null => simp only [buildBizPolicies] at h; cases h

theorem bizinfoParse_ok_mem {data : Json} {l : List BizPolicy}
    (hp : bizinfoParse data = .ok l) :
    ∀ r ∈ l, ∃ fields, mkBizPolicy fields = .ok r := by
  unfold bizinfoParse at hp
  cases hc : computeBizItems data with
  | error e => rw [hc, exc_bind_error] at hp; cases hp
  | ok itemsO =>
      rw [hc, exc_bind_ok] at hp
      cases itemsO with
      | none =>
          have : ([] : List BizPolicy) = l := Except.ok.inj hp
          subst this
          intro r hr
          cases hr
      | some items =>
          simp only at hp
          by_cases ht : items.truthy = true
          · rw [if_pos ht] at hp
            cases hi : pyIter items with
            | error e => rw [hi, exc_bind_error] at hp; cases hp
            | ok il =>
                rw [hi, exc_bind_ok] at hp
                exact mem_buildBizPolicies hp
          · rw [if_neg ht] at hp
            have : ([] : List BizPolicy) = l := Except.ok.inj hp
            subst this
            intro r hr
            cases hr

theorem get_policies_mem {data : Json} {r : BizPolicy}
    (hr : r ∈ BizinfoPolicyAPI.get_policies data) :
    ∃ fields, mkBizPolicy fields = .ok r := by
  unfold BizinfoPolicyAPI.get_policies at hr
  cases hp : bizinfoParse data with
  | error e => simp only [hp] at hr; cases hr
  | ok l =>
      simp only [hp] at hr
      exact bizinfoParse_ok_mem hp r hr

theorem biz_url_ne_empty (s : String) : ("https://www.bizinfo.go.kr" ++ s) ≠ "" := by
  intro h
  have hlen := congrArg String.length h
  rw [String.length_append] at hlen
  have h1 : ("https://www.bizinfo.go.kr" : String).length = 25 := rfl
  have h2 : ("" : String).length = 0 := rfl
  omega

def bizSingleObjPayload : Json :=
  Json.obj [("jsonArray", Json.obj [("item",
    Json.obj [("pblancNm", Json.str "테스트사업"), ("pblancUrl", Json.str "/test")])])]

/-- C9 counterexample: when `jsonArray.item` is a single object, the adapter
does NOT coerce it to a one-element list: Python iterates the dict's keys,
`key.get(...)` raises `AttributeError`, the handler absorbs it, and zero
candidates come back instead of the claimed one record. -/
theorem c9_single_object_counterexample :
    BizinfoPolicyAPI.get_policies bizSingleObjPayload = []
      ∧ (BizinfoPolicyAPI.get_policies bizSingleObjPayload).length ≠ 1 :=
  ⟨rfl, by decide⟩

/-- C9 (amended): a single object under `jsonArray.item` always yields zero
candidates (empty object: falsy; nonempty object: key iteration fails and
the exception handler returns `[]`) — there is no one-element coercion;
a well-formed list under `jsonArray.item` yields one record per item, and
parse failures never propagate (the function totalizes to a list). -/
theorem c9_single_object_amended :
    (∀ af : List (String × Json),
        BizinfoPolicyAPI.get_policies
          (Json.obj [("jsonArray", Json.obj [("item", Json.obj af)])]) = [])
      ∧ (∀ (l : List Json) (ps : List BizPolicy), buildBizPolicies l = .ok ps →
          BizinfoPolicyAPI.get_policies
            (Json.obj [("jsonArray", Json.obj [("item", Json.arr l)])]) = ps) := by
  constructor
  · intro af
    cases af with
    | nil => rfl
    | cons kv rest => rfl
  · intro l ps h
    cases l with
    | nil =>
        have hps : ([] : List BizPolicy) = ps := Except.ok.inj h
        rw [← hps]
        rfl
    | cons j rest =>
        have h2 : bizinfoParse
            (Json.obj [("jsonArray", Json.obj [("item", Json.arr (j :: rest))])])
              = buildBizPolicies (j :: rest) := rfl
        simp only [BizinfoPolicyAPI.get_policies, h2, h]

def pBizWitness : BizPolicy :=
  { title := Json.str "A", agency := Json.str "N/A", category := Json.str "N/A"
    summary := Json.str "N/A", period := Json.str "N/A"
    url := "https://www.bizinfo.go.kr" ++ "/a" }

/-- Witness for C9 (amended): a one-item list payload produces exactly one
record. -/
theorem c9_single_object_amended_witness :
    buildBizPolicies [Json.obj [("pblancNm", Json.str "A"), ("pblancUrl", Json.str "/a")]]
        = .ok [pBizWitness]
      ∧ BizinfoPolicyAPI.get_policies
          (Json.obj [("jsonArray", Json.obj [("item",
            Json.arr [Json.obj [("pblancNm", Json.str "A"), ("pblancUrl", Json.str "/a")]])])])
          = [pBizWitness] :=
  ⟨rfl, c9_single_object_amended.2 _ _ rfl⟩

/-- C10: every record the BizInfo adapter produces has a non-empty `url`
beginning with the fixed site address (exactly the bare address when the
upstream `pblancUrl` is absent), so BizInfo records always carry a truthy
dedup key; at any key — in particular the shared bare address of two
records lacking `pblancUrl` — the federation dedup keeps at most one record,
namely the first occurrence in merge order. -/
theorem c10_bizinfo_url_dedup :
    (∀ (data : Json) (r : BizPolicy), r ∈ BizinfoPolicyAPI.get_policies data →
        (∃ s : String, r.url = "https://www.bizinfo.go.kr" ++ s)
          ∧ r.url ≠ ""
          ∧ (PolicyRecord.biz r).dedupUrl = some r.url)
      ∧ (∀ (fields : List (String × Json)) (p : BizPolicy),
          lookupJ fields "pblancUrl" = none → mkBizPolicy fields = .ok p →
            p.url = "https://www.bizinfo.go.kr")
      ∧ (∀ (l : List PolicyRecord) (k : String),
          (dedup_policies l).countP (fun r => decide (r.dedupUrl = some k)) ≤ 1)
      ∧ (∀ (l : List PolicyRecord) (r : PolicyRecord),
          r ∈ dedup_policies l → r.dedupUrl = some "https://www.bizinfo.go.kr" →
            l.find? (fun x => decide (x.dedupUrl = some "https://www.bizinfo.go.kr"))
              = some r) := by
  refine ⟨?_, ?_, ?_, ?_⟩
  · intro data r hr
    rcases get_policies_mem hr with ⟨fields, hmk⟩
    rcases mkBizPolicy_url hmk with ⟨s, hurl, _⟩
    have hne : r.url ≠ "" := by
      rw [hurl]
      exact biz_url_ne_empty s
    refine ⟨⟨s, hurl⟩, hne, ?_⟩
    simp only [PolicyRecord.dedupUrl, if_neg hne]
  · intro fields p hnone hmk
    rcases mkBizPolicy_url hmk with ⟨s, hurl, hs⟩
    rw [hurl, hs hnone]
    rfl
  · intro l k
    exact (dedupAux_countP_le_one [] l k).1
  · intro l r hr hk
    exact (dedupAux_first_wins [] l r hr _ hk).2

def rBizBare : BizPolicy :=
  { title := Json.str "B", agency := Json.str "N/A", category := Json.str "N/A"
    summary := Json.str "N/A", period := Json.str "N/A"
    url := "https://www.bizinfo.go.kr" }

def rBizBare2 : BizPolicy :=
  { title := Json.str "B2", agency := Json.str "N/A", category := Json.str "N/A"
    summary := Json.str "N/A", period := Json.str "N/A"
    url := "https://www.bizinfo.go.kr" }

/-- Witness for C10: a record from a payload without `pblancUrl` carries the
bare site address, and of two merged bare-address records only the first
survives deduplication. -/
theorem c10_bizinfo_url_dedup_witness :
    ((∃ s : String, rBizBare.url = "https://www.bizinfo.go.kr" ++ s)
        ∧ rBizBare.url ≠ ""
        ∧ (PolicyRecord.biz rBizBare).dedupUrl = some rBizBare.url)
      ∧ dedup_policies [PolicyRecord.biz rBizBare, PolicyRecord.biz rBizBare2]
          = [PolicyRecord.biz rBizBare] :=
  ⟨c10_bizinfo_url_dedup.1
      (Json.obj [("jsonArray", Json.obj [("item", Json.arr [Json.obj [("pblancNm",
        Json.str "B")]])])])
      rBizBare
      (by
        have h : BizinfoPolicyAPI.get_policies
            (Json.obj [("jsonArray", Json.obj [("item", Json.arr [Json.obj [("pblancNm",
              Json.str "B")]])])]) = [rBizBare] := rfl
        rw [h]
        exact List.mem_singleton_self _),
    rfl⟩
